import Mathlib

/-!
Verification of the link-rewriting content script (`src/content.js`).

The script's core operation `modifySearchResults` runs two passes over the
document's anchor elements:

* pass 1 selects anchors matching
  `a[href*="/url?q="], a[jsname], .g h3 a, .yuRUbf a` and mutates each one
  provided its `href` is non-empty, does not contain `google.com/search`,
  does not contain `#`, and the element does not already carry the class
  `modified-by-extension`;
* pass 2 selects anchors matching `a[href*="/imgres"]` and mutates each one
  that does not already carry the class `modified-by-extension`.

Mutation sets `target = "_blank"`, `rel = "noopener noreferrer"` and adds
the class `modified-by-extension`.

The script additionally wires a `MutationObserver` callback that schedules a
rescan 100ms later whenever a mutation batch contains a `childList` record
with added nodes (without cancelling earlier timers), and a scroll listener
that debounces rescans with a 200ms timer (`clearTimeout` then `setTimeout`).

Anchors are modelled by a structure recording the fields the script reads or
writes (`href`, `target`, `rel`, the class list) together with the
selector-relevant facts that depend on the surrounding tree or on attributes
the script never touches (`jsname` presence, `.g h3` / `.yuRUbf` ancestry,
other attributes).  The document is a list of such anchors; since the script
mutates each element independently, the two `forEach` passes are maps over
the list.
-/

/-- The marker class added by the script: `modified-by-extension`. -/
def markerClass : String := "modified-by-extension"

/-- A DOM anchor element, restricted to the data the script consults or
mutates.  `hasJsname`, `inGH3` and `inYuRUbf` record whether the element
matches the selectors `a[jsname]`, `.g h3 a` and `.yuRUbf a`; these facts
depend on attributes and ancestors the script never modifies.
`otherAttrs` stands for all remaining attributes of the element. -/
structure Element where
  href : String
  hasJsname : Bool
  inGH3 : Bool
  inYuRUbf : Bool
  target : String
  rel : String
  classes : List String
  otherAttrs : List (String × String)
deriving DecidableEq, Repr

/-- Substring containment, the semantics of both `href*=` attribute
selectors and JavaScript's `String.prototype.includes`. -/
def strContains (s pat : String) : Bool := decide (pat.data <:+: s.data)

/-- Whether an anchor is selected by pass 1's selector list
`a[href*="/url?q="], a[jsname], .g h3 a, .yuRUbf a`. -/
def matchesGeneral (e : Element) : Bool :=
  strContains e.href "/url?q=" || e.hasJsname || e.inGH3 || e.inYuRUbf

/-- Whether an anchor is selected by pass 2's selector `a[href*="/imgres"]`. -/
def matchesImage (e : Element) : Bool :=
  strContains e.href "/imgres"

/-- The check `link.classList.contains('modified-by-extension')`. -/
def hasMarker (e : Element) : Bool := decide (markerClass ∈ e.classes)

/-- The DOM operation `classList.add`: a class token is appended only if
not already present. -/
def classListAdd (cs : List String) (c : String) : List String :=
  if c ∈ cs then cs else cs ++ [c]

/-- The mutation applied to an eligible link:
`link.target = '_blank'; link.rel = 'noopener noreferrer';
link.classList.add('modified-by-extension')`. -/
def setLinkAttrs (e : Element) : Element :=
  { e with target := "_blank", rel := "noopener noreferrer",
           classes := classListAdd e.classes markerClass }

/-- Pass 1's eligibility condition:
`link.href && !link.href.includes('google.com/search') &&
!link.href.includes('#') && !link.classList.contains('modified-by-extension')`. -/
def pass1Eligible (e : Element) : Bool :=
  (e.href != "") && !(strContains e.href "google.com/search")
    && !(strContains e.href "#") && !(hasMarker e)

/-- The effect of pass 1 (`searchLinks.forEach`) on a single element. -/
def pass1Step (e : Element) : Element :=
  if matchesGeneral e && pass1Eligible e then setLinkAttrs e else e

/-- The effect of pass 2 (`imageLinks.forEach`) on a single element. -/
def pass2Step (e : Element) : Element :=
  if matchesImage e && !(hasMarker e) then setLinkAttrs e else e

/-- The total effect of one `modifySearchResults` invocation on a single
element: pass 1 followed by pass 2. -/
def processElement (e : Element) : Element := pass2Step (pass1Step e)

/-- The operation `modifySearchResults`: pass 1 over the whole document, then pass 2 over
the resulting document.  (Selector matching depends only on `href`, `jsname`
and ancestry, none of which pass 1 changes, so the pass-2 query run after
pass 1's mutations selects by the same predicate.) -/
def modifySearchResults (doc : List Element) : List Element :=
  (doc.map pass1Step).map pass2Step

theorem modifySearchResults_eq_map (doc : List Element) :
    modifySearchResults doc = doc.map processElement := by
  simp [modifySearchResults, processElement, List.map_map, Function.comp]

theorem hasMarker_setLinkAttrs (e : Element) : hasMarker (setLinkAttrs e) = true := by
  unfold hasMarker setLinkAttrs classListAdd
  by_cases h : markerClass ∈ e.classes <;> simp [h]

theorem setLinkAttrs_ne (e : Element) (h : hasMarker e = false) :
    setLinkAttrs e ≠ e := by
  unfold hasMarker at h
  intro heq
  have hc : (setLinkAttrs e).classes = e.classes := by rw [heq]
  have hm : markerClass ∉ e.classes := by simpa using h
  unfold setLinkAttrs classListAdd at hc
  simp only [if_neg hm] at hc
  have := congrArg List.length hc
  simp at this

theorem pass1Step_marked (e : Element) (h : hasMarker e = true) :
    pass1Step e = e := by
  unfold pass1Step pass1Eligible
  simp [h]

theorem pass2Step_marked (e : Element) (h : hasMarker e = true) :
    pass2Step e = e := by
  unfold pass2Step
  simp [h]

theorem processElement_marked (e : Element) (h : hasMarker e = true) :
    processElement e = e := by
  unfold processElement
  rw [pass1Step_marked e h, pass2Step_marked e h]

/-- One invocation either leaves an element alone or applies exactly one
attribute mutation (to a previously unmarked element). -/
theorem processElement_cases (e : Element) :
    processElement e = e ∨
      (processElement e = setLinkAttrs e ∧ hasMarker e = false) := by
  unfold processElement pass1Step
  by_cases h1 : matchesGeneral e && pass1Eligible e
  · right
    have hm : hasMarker e = false := by
      unfold pass1Eligible at h1
      simp only [Bool.and_eq_true, Bool.not_eq_true'] at h1
      exact h1.2.2
    refine ⟨?_, hm⟩
    rw [if_pos h1]
    exact pass2Step_marked _ (hasMarker_setLinkAttrs e)
  · rw [if_neg h1]
    unfold pass2Step
    by_cases h2 : matchesImage e && !(hasMarker e)
    · right
      refine ⟨by rw [if_pos h2], ?_⟩
      have := h2
      simp only [Bool.and_eq_true, Bool.not_eq_true'] at this
      exact this.2
    · left; rw [if_neg h2]

theorem pass1Eligible_iff (e : Element) :
    pass1Eligible e = true ↔
      (e.href ≠ "" ∧ strContains e.href "google.com/search" = false ∧
       strContains e.href "#" = false ∧ hasMarker e = false) := by
  simp [pass1Eligible, Bool.and_eq_true, Bool.not_eq_true', bne_iff_ne, and_assoc]

theorem pass1Step_mutated (e : Element) (h : pass1Step e ≠ e) :
    pass1Step e = setLinkAttrs e ∧ hasMarker e = false := by
  unfold pass1Step at *
  by_cases hc : (matchesGeneral e && pass1Eligible e) = true
  · rw [if_pos hc] at *
    have he : pass1Eligible e = true := (Bool.and_eq_true _ _ ▸ hc).2
    exact ⟨rfl, ((pass1Eligible_iff e).mp he).2.2.2⟩
  · rw [if_neg hc] at h
    exact absurd rfl h

theorem pass2Step_mutated (e : Element) (h : pass2Step e ≠ e) :
    pass2Step e = setLinkAttrs e ∧ hasMarker e = false := by
  unfold pass2Step at *
  by_cases hc : (matchesImage e && !(hasMarker e)) = true
  · rw [if_pos hc] at *
    have := (Bool.and_eq_true _ _ ▸ hc).2
    exact ⟨rfl, by simpa using this⟩
  · rw [if_neg hc] at h
    exact absurd rfl h

theorem processElement_idem (e : Element) :
    processElement (processElement e) = processElement e := by
  rcases processElement_cases e with h | ⟨h, -⟩
  · rw [h, h]
  · rw [h]
    exact processElement_marked _ (hasMarker_setLinkAttrs e)

/-- A typical organic result link: resolved URL `https://example.com/page`,
sitting under a `.g h3` heading, not yet processed. -/
def exampleResultLink : Element :=
  { href := "https://example.com/page", hasJsname := false, inGH3 := true,
    inYuRUbf := false, target := "", rel := "", classes := [], otherAttrs := [] }

/-- C1: every anchor judged eligible by `modifySearchResults` — by the
pass-1 filter, or by the pass-2 marker check at the time pass 2 runs —
ends the invocation with `target = "_blank"`, `rel = "noopener noreferrer"`
and the `modified-by-extension` marker. -/
theorem eligible_links_get_blank_noopener (e : Element)
    (h : (matchesGeneral e = true ∧ pass1Eligible e = true) ∨
         (matchesImage (pass1Step e) = true ∧ hasMarker (pass1Step e) = false)) :
    (processElement e).target = "_blank" ∧
    (processElement e).rel = "noopener noreferrer" ∧
    hasMarker (processElement e) = true := by
  rcases h with ⟨hg, he⟩ | ⟨hi, hm⟩
  · have hstep : pass1Step e = setLinkAttrs e := by
      unfold pass1Step; rw [if_pos (by simp [hg, he])]
    have : processElement e = setLinkAttrs e := by
      unfold processElement
      rw [hstep, pass2Step_marked _ (hasMarker_setLinkAttrs e)]
    rw [this]
    exact ⟨rfl, rfl, hasMarker_setLinkAttrs e⟩
  · have : processElement e = setLinkAttrs (pass1Step e) := by
      unfold processElement pass2Step
      rw [if_pos (by simp [hi, hm])]
    rw [this]
    exact ⟨rfl, rfl, hasMarker_setLinkAttrs _⟩

/-- Witness for C1 at a concrete organic result link. -/
theorem eligible_links_get_blank_noopener_witness :
    ((matchesGeneral exampleResultLink = true ∧ pass1Eligible exampleResultLink = true) ∨
     (matchesImage (pass1Step exampleResultLink) = true ∧
      hasMarker (pass1Step exampleResultLink) = false)) ∧
    ((processElement exampleResultLink).target = "_blank" ∧
     (processElement exampleResultLink).rel = "noopener noreferrer" ∧
     hasMarker (processElement exampleResultLink) = true) :=
  ⟨Or.inl ⟨by decide, by decide⟩,
   eligible_links_get_blank_noopener exampleResultLink (Or.inl ⟨by decide, by decide⟩)⟩

/-- C2: a pass-1-selected anchor is mutated by pass 1 iff its `href` is
non-empty, does not contain `google.com/search`, does not contain `#`, and
the anchor does not already carry the marker. -/
theorem pass1_mutates_iff_filter (e : Element) (h : matchesGeneral e = true) :
    pass1Step e ≠ e ↔
      (e.href ≠ "" ∧ strContains e.href "google.com/search" = false ∧
       strContains e.href "#" = false ∧ hasMarker e = false) := by
  rw [← pass1Eligible_iff]
  by_cases hc : pass1Eligible e = true
  · have hstep : pass1Step e = setLinkAttrs e := by
      unfold pass1Step; rw [if_pos (by simp [h, hc])]
    have hm : hasMarker e = false := ((pass1Eligible_iff e).mp hc).2.2.2
    rw [hstep]
    exact iff_of_true (setLinkAttrs_ne e hm) hc
  · have hstep : pass1Step e = e := by
      unfold pass1Step
      rw [if_neg (by simp only [Bool.and_eq_true]; exact fun hand => hc hand.2)]
    rw [hstep]
    exact iff_of_false (not_not_intro rfl) hc

/-- Witness for C2 at a concrete pass-1-selected link. -/
theorem pass1_mutates_iff_filter_witness :
    matchesGeneral exampleResultLink = true ∧
    (pass1Step exampleResultLink ≠ exampleResultLink ↔
      (exampleResultLink.href ≠ "" ∧
       strContains exampleResultLink.href "google.com/search" = false ∧
       strContains exampleResultLink.href "#" = false ∧
       hasMarker exampleResultLink = false)) :=
  ⟨by decide, pass1_mutates_iff_filter exampleResultLink (by decide)⟩

/-- C3: `modifySearchResults` is idempotent — a second invocation on the
result of a first produces the same document, and no element of that
document is changed by reprocessing. -/
theorem modifySearchResults_idempotent (doc : List Element) :
    modifySearchResults (modifySearchResults doc) = modifySearchResults doc ∧
    ∀ e ∈ modifySearchResults doc, processElement e = e := by
  constructor
  · rw [modifySearchResults_eq_map, modifySearchResults_eq_map, List.map_map]
    have hfun : processElement ∘ processElement = processElement :=
      funext fun e => processElement_idem e
    rw [hfun]
  · intro e he
    rw [modifySearchResults_eq_map] at he
    rcases List.mem_map.mp he with ⟨a, -, rfl⟩
    exact processElement_idem a

/-- The marker invariant: every marked element already carries the
rewritten attributes. -/
def markedConsistent (doc : List Element) : Prop :=
  ∀ e ∈ doc, hasMarker e = true →
    e.target = "_blank" ∧ e.rel = "noopener noreferrer"

/-- C4: each invocation preserves the invariant that marked elements have
`target = "_blank"` and `rel = "noopener noreferrer"`, and no element is
mutated by both passes of one invocation (pass 2 leaves every element
mutated by pass 1 unchanged). -/
theorem marker_invariant_preserved (doc : List Element)
    (h : markedConsistent doc) :
    markedConsistent (modifySearchResults doc) ∧
    ∀ e ∈ doc, pass1Step e ≠ e → pass2Step (pass1Step e) = pass1Step e := by
  constructor
  · intro e' he' hm'
    rw [modifySearchResults_eq_map] at he'
    rcases List.mem_map.mp he' with ⟨a, ha, rfl⟩
    rcases processElement_cases a with hcase | ⟨hcase, -⟩
    · rw [hcase] at hm' ⊢
      exact h a ha hm'
    · rw [hcase]
      exact ⟨rfl, rfl⟩
  · intro e _ hne
    rw [(pass1Step_mutated e hne).1]
    exact pass2Step_marked _ (hasMarker_setLinkAttrs e)

/-- Witness for C4: a document holding one already-rewritten link and one
fresh link satisfies the invariant before and after an invocation. -/
theorem marker_invariant_preserved_witness :
    markedConsistent
      [{ href := "https://example.com/a", hasJsname := true, inGH3 := false,
         inYuRUbf := false, target := "_blank", rel := "noopener noreferrer",
         classes := ["modified-by-extension"], otherAttrs := [] },
       exampleResultLink] ∧
    (markedConsistent (modifySearchResults
      [{ href := "https://example.com/a", hasJsname := true, inGH3 := false,
         inYuRUbf := false, target := "_blank", rel := "noopener noreferrer",
         classes := ["modified-by-extension"], otherAttrs := [] },
       exampleResultLink]) ∧
     ∀ e ∈ [{ href := "https://example.com/a", hasJsname := true, inGH3 := false,
              inYuRUbf := false, target := "_blank", rel := "noopener noreferrer",
              classes := ["modified-by-extension"], otherAttrs := [] },
            exampleResultLink],
       pass1Step e ≠ e → pass2Step (pass1Step e) = pass1Step e) :=
  ⟨by unfold markedConsistent; decide,
   marker_invariant_preserved _ (by unfold markedConsistent; decide)⟩

/-- C5: an anchor that carries the marker is left entirely unchanged by a
subsequent invocation, whatever its other attributes hold. -/
theorem marked_element_untouched (e : Element) (h : hasMarker e = true) :
    processElement e = e :=
  processElement_marked e h

/-- Witness for C5: a marked link whose `target` and `rel` were externally
reset is still not touched. -/
theorem marked_element_untouched_witness :
    hasMarker { href := "https://example.com/page", hasJsname := true,
                inGH3 := false, inYuRUbf := false, target := "", rel := "",
                classes := ["modified-by-extension"], otherAttrs := [] } = true ∧
    processElement { href := "https://example.com/page", hasJsname := true,
                     inGH3 := false, inYuRUbf := false, target := "", rel := "",
                     classes := ["modified-by-extension"], otherAttrs := [] } =
      { href := "https://example.com/page", hasJsname := true,
        inGH3 := false, inYuRUbf := false, target := "", rel := "",
        classes := ["modified-by-extension"], otherAttrs := [] } :=
  ⟨by decide, marked_element_untouched _ (by decide)⟩

/-- C6: the image pass mutates a selected anchor iff it carries no marker —
no URL-based condition is applied. -/
theorem image_pass_mutates_iff_unmarked (e : Element) (h : matchesImage e = true) :
    pass2Step e ≠ e ↔ hasMarker e = false := by
  by_cases hm : hasMarker e = true
  · rw [pass2Step_marked e hm]
    exact iff_of_false (not_not_intro rfl) (by simp [hm])
  · have hm' : hasMarker e = false := Bool.not_eq_true _ ▸ hm
    have hstep : pass2Step e = setLinkAttrs e := by
      unfold pass2Step; rw [if_pos (by simp [h, hm'])]
    rw [hstep]
    exact iff_of_true (setLinkAttrs_ne e hm') hm'

/-- Witness for C6: an image-result anchor whose URL both lies on the
engine's own search endpoint and contains a fragment is still mutated. -/
theorem image_pass_mutates_iff_unmarked_witness :
    matchesImage { href := "https://www.google.com/search?q=cat#a/imgres",
                   hasJsname := false, inGH3 := false, inYuRUbf := false,
                   target := "", rel := "", classes := [], otherAttrs := [] } = true ∧
    (pass2Step { href := "https://www.google.com/search?q=cat#a/imgres",
                 hasJsname := false, inGH3 := false, inYuRUbf := false,
                 target := "", rel := "", classes := [], otherAttrs := [] } ≠
       { href := "https://www.google.com/search?q=cat#a/imgres",
         hasJsname := false, inGH3 := false, inYuRUbf := false,
         target := "", rel := "", classes := [], otherAttrs := [] } ↔
     hasMarker { href := "https://www.google.com/search?q=cat#a/imgres",
                 hasJsname := false, inGH3 := false, inYuRUbf := false,
                 target := "", rel := "", classes := [], otherAttrs := [] } = false) :=
  ⟨by decide, image_pass_mutates_iff_unmarked _ (by decide)⟩

/-- An image-result anchor that also carries a `jsname` attribute: it is
selected both by pass 1 (`a[jsname]`) and by pass 2 (`a[href*="/imgres"]`). -/
def imgResJsnameLink : Element :=
  { href := "https://www.google.com/imgres?imgurl=x", hasJsname := true,
    inGH3 := false, inYuRUbf := false, target := "", rel := "",
    classes := [], otherAttrs := [] }

/-- C7 counterexample: the two selector sets are not disjoint — a concrete
anchor with a `jsname` attribute and an href containing `/imgres` is
selected by both passes. -/
theorem selector_passes_not_disjoint :
    matchesGeneral imgResJsnameLink = true ∧
    matchesImage imgResJsnameLink = true := by decide

/-- C7 amended: the two selector sets can overlap, but no anchor is
examined effectively by both passes in one invocation — whenever pass 1
mutates an element, pass 2 leaves the result unchanged. -/
theorem no_element_mutated_by_both_passes (e : Element)
    (h : pass1Step e ≠ e) :
    pass2Step (pass1Step e) = pass1Step e := by
  rw [(pass1Step_mutated e h).1]
  exact pass2Step_marked _ (hasMarker_setLinkAttrs e)

/-- Witness for the amended C7 at the doubly-selected anchor. -/
theorem no_element_mutated_by_both_passes_witness :
    pass1Step imgResJsnameLink ≠ imgResJsnameLink ∧
    pass2Step (pass1Step imgResJsnameLink) = pass1Step imgResJsnameLink :=
  ⟨by decide, no_element_mutated_by_both_passes imgResJsnameLink (by decide)⟩

/-- C10: one invocation changes at most `target`, `rel` and the class list
of an element: `href`, the selector-relevant attributes and all other
attributes are preserved; a mutated element receives exactly `"_blank"` and
exactly `"noopener noreferrer"` (overwriting any previous values) and its
class list is its old one with just the marker appended. -/
theorem frame_only_target_rel_classes (e : Element) :
    (processElement e).href = e.href ∧
    (processElement e).hasJsname = e.hasJsname ∧
    (processElement e).inGH3 = e.inGH3 ∧
    (processElement e).inYuRUbf = e.inYuRUbf ∧
    (processElement e).otherAttrs = e.otherAttrs ∧
    (processElement e = e ∨
      ((processElement e).target = "_blank" ∧
       (processElement e).rel = "noopener noreferrer" ∧
       (processElement e).classes = e.classes ++ [markerClass])) := by
  rcases processElement_cases e with h | ⟨h, hm⟩
  · rw [h]
    exact ⟨rfl, rfl, rfl, rfl, rfl, Or.inl rfl⟩
  · have hnm : markerClass ∉ e.classes := by
      unfold hasMarker at hm; simpa using hm
    rw [h]
    refine ⟨rfl, rfl, rfl, rfl, rfl, Or.inr ⟨rfl, rfl, ?_⟩⟩
    unfold setLinkAttrs classListAdd
    simp [if_neg hnm]

/-- A DOM mutation record, restricted to the fields the observer callback
reads: `mutation.type` and `mutation.addedNodes.length`. -/
structure MutationRecord where
  type : String
  addedNodesLen : Nat
deriving DecidableEq, Repr

/-- The mutation-batch debounce interval: `setTimeout(modifySearchResults, 100)`. -/
def mutationDebounceMs : Nat := 100

/-- The flag computed by the callback's `mutations.forEach` loop:
`shouldModify` starts `false` and is set to `true` by every record with
`type === 'childList'` and `addedNodes.length > 0`. -/
def shouldModifyFlag (ms : List MutationRecord) : Bool :=
  ms.foldl
    (fun b m => if m.type = "childList" ∧ 0 < m.addedNodesLen then true else b)
    false

/-- The observer callback acting on the multiset of pending mutation-batch
timers (represented by their fire times): a qualifying batch appends one
timer set to `now + 100`; nothing is ever removed. -/
def observerCallback (pending : List Nat) (now : Nat)
    (ms : List MutationRecord) : List Nat :=
  if shouldModifyFlag ms then pending ++ [now + mutationDebounceMs] else pending

theorem foldl_flag_eq_true (ms : List MutationRecord) (b : Bool) :
    ms.foldl
        (fun b m => if m.type = "childList" ∧ 0 < m.addedNodesLen then true else b)
        b = true ↔
      b = true ∨ ∃ m ∈ ms, m.type = "childList" ∧ 0 < m.addedNodesLen := by
  induction ms generalizing b with
  | nil => simp
  | cons m ms ih =>
      rw [List.foldl_cons, ih]
      by_cases hm : m.type = "childList" ∧ 0 < m.addedNodesLen
      · simp [hm]
      · simp [hm]

theorem shouldModifyFlag_iff (ms : List MutationRecord) :
    shouldModifyFlag ms = true ↔
      ∃ m ∈ ms, m.type = "childList" ∧ 0 < m.addedNodesLen := by
  rw [shouldModifyFlag, foldl_flag_eq_true]
  simp

/-- C9: a mutation batch schedules one rescan timer at `now + 100` iff it
holds a `childList` record with at least one added node; the new timer is
appended to the pending set, and no pending timer is ever cancelled or
replaced by a later batch. -/
theorem mutation_batch_schedules_iff_added_nodes
    (pending : List Nat) (now : Nat) (ms : List MutationRecord) :
    observerCallback pending now ms =
      pending ++
        (if ∃ m ∈ ms, m.type = "childList" ∧ 0 < m.addedNodesLen
         then [now + mutationDebounceMs] else []) := by
  unfold observerCallback
  by_cases h : shouldModifyFlag ms = true
  · rw [if_pos h, if_pos ((shouldModifyFlag_iff ms).mp h)]
  · rw [if_neg h, if_neg (fun hex => h ((shouldModifyFlag_iff ms).mpr hex))]
    simp

/-- The scroll debounce interval: `setTimeout(modifySearchResults, 200)`. -/
def scrollDebounceMs : Nat := 200

/-- The timer state around the scroll handler: the counter producing fresh
`setTimeout` handles, the pending scroll timers as `(handle, fireTime)`
pairs, the `scrollTimeout` variable (the last handle, if any was ever
assigned), and the times at which rescan callbacks have run. -/
structure ScrollState where
  nextId : Nat
  pending : List (Nat × Nat)
  scrollTimeout : Option Nat
  fired : List Nat
deriving DecidableEq, Repr

/-- The effect of `clearTimeout`: remove the timer with the given handle; clearing an
unassigned handle is a no-op. -/
def clearPending (pending : List (Nat × Nat)) : Option Nat → List (Nat × Nat)
  | none => pending
  | some i => pending.filter (fun p => p.1 != i)

/-- The event loop running every timer due by time `now`: due timers leave
the pending set and their fire times are appended to the run log. -/
def fireDue (s : ScrollState) (now : Nat) : ScrollState :=
  { s with
    pending := s.pending.filter (fun p => decide (now < p.2)),
    fired := s.fired ++ (s.pending.filter (fun p => decide (p.2 ≤ now))).map Prod.snd }

/-- The scroll listener at event time `now`: timers already due have fired
beforehand (the event loop serializes them with the handler), then
`clearTimeout(scrollTimeout); scrollTimeout = setTimeout(..., 200)`. -/
def onScroll (s : ScrollState) (now : Nat) : ScrollState :=
  let s' := fireDue s now
  { nextId := s'.nextId + 1,
    pending := clearPending s'.pending s'.scrollTimeout
                 ++ [(s'.nextId, now + scrollDebounceMs)],
    scrollTimeout := some s'.nextId,
    fired := s'.fired }

/-- The state at script start: no timer pending, `scrollTimeout` unset. -/
def initScrollState : ScrollState := ⟨0, [], none, []⟩

/-- Processing a sequence of scroll events in order. -/
def runScrollBurst (s : ScrollState) (ts : List Nat) : ScrollState :=
  ts.foldl onScroll s

theorem runScrollBurst_inv (ts : List Nat) :
    ∀ (n t : Nat),
      List.Chain' (fun a b => a ≤ b ∧ b < a + scrollDebounceMs) (t :: ts) →
      runScrollBurst ⟨n + 1, [(n, t + scrollDebounceMs)], some n, []⟩ ts =
        ⟨n + ts.length + 1,
         [(n + ts.length, (t :: ts).getLast (by simp) + scrollDebounceMs)],
         some (n + ts.length), []⟩ := by
  induction ts with
  | nil => intro n t _; simp [runScrollBurst]
  | cons u us ih =>
      intro n t hchain
      have hstep : (t :: u :: us).Chain' (fun a b => a ≤ b ∧ b < a + scrollDebounceMs) := hchain
      rw [List.chain'_cons] at hstep
      obtain ⟨⟨-, hlt⟩, htail⟩ := hstep
      have hexp : runScrollBurst ⟨n + 1, [(n, t + scrollDebounceMs)], some n, []⟩ (u :: us) =
          runScrollBurst (onScroll ⟨n + 1, [(n, t + scrollDebounceMs)], some n, []⟩ u) us := by
        simp [runScrollBurst]
      have hscroll : onScroll ⟨n + 1, [(n, t + scrollDebounceMs)], some n, []⟩ u =
          ⟨n + 2, [(n + 1, u + scrollDebounceMs)], some (n + 1), []⟩ := by
        have hdue : decide (u < t + scrollDebounceMs) = true := decide_eq_true hlt
        have hfalse : decide (t + scrollDebounceMs ≤ u) = false :=
          decide_eq_false (Nat.not_le.mpr hlt)
        simp [onScroll, fireDue, clearPending, List.filter, hdue, hfalse]
      rw [hexp, hscroll, ih (n + 1) u htail]
      have hlast : (t :: u :: us).getLast (by simp) = (u :: us).getLast (by simp) :=
        List.getLast_cons (by simp)
      rw [hlast]
      simp only [List.length_cons]
      have h1 : n + 1 + us.length = n + (us.length + 1) := by omega
      rw [h1]

/-- C8: during a burst of scroll events (each arriving within 200ms of the
previous one), every event cancels the pending scroll timer and schedules a
fresh one, so after the burst exactly one scroll timer is pending; once
200ms elapse past the final event, exactly one rescan has run, at the final
event's time plus 200ms, and no scroll timer remains. -/
theorem scroll_burst_single_rescan (ts : List Nat) (h : ts ≠ [])
    (hchain : List.Chain' (fun a b => a ≤ b ∧ b < a + scrollDebounceMs) ts)
    (T : Nat) (hT : ts.getLast h + scrollDebounceMs ≤ T) :
    (runScrollBurst initScrollState ts).pending.length = 1 ∧
    (fireDue (runScrollBurst initScrollState ts) T).fired =
      [ts.getLast h + scrollDebounceMs] ∧
    (fireDue (runScrollBurst initScrollState ts) T).pending = [] := by
  cases ts with
  | nil => exact absurd rfl h
  | cons t ts' =>
      have hrun : runScrollBurst initScrollState (t :: ts') =
          runScrollBurst ⟨1, [(0, t + scrollDebounceMs)], some 0, []⟩ ts' := rfl
      rw [hrun, runScrollBurst_inv ts' 0 t hchain]
      refine ⟨rfl, ?_, ?_⟩
      · simp [fireDue, List.filter, decide_eq_true hT]
      · simp [fireDue, List.filter, decide_eq_false (Nat.not_lt.mpr hT)]

/-- Witness for C8: three scroll events at 0ms, 100ms and 150ms leave one
pending timer, and a single rescan runs at 350ms. -/
theorem scroll_burst_single_rescan_witness :
    (([0, 100, 150] : List Nat) ≠ [] ∧
     List.Chain' (fun a b => a ≤ b ∧ b < a + scrollDebounceMs) [0, 100, 150] ∧
     ([0, 100, 150] : List Nat).getLast (by simp) + scrollDebounceMs ≤ 350) ∧
    ((runScrollBurst initScrollState [0, 100, 150]).pending.length = 1 ∧
     (fireDue (runScrollBurst initScrollState [0, 100, 150]) 350).fired =
       [([0, 100, 150] : List Nat).getLast (by simp) + scrollDebounceMs] ∧
     (fireDue (runScrollBurst initScrollState [0, 100, 150]) 350).pending = []) :=
  ⟨⟨by simp, by norm_num [List.chain'_cons, scrollDebounceMs], by decide⟩,
   scroll_burst_single_rescan [0, 100, 150] (by simp)
     (by norm_num [List.chain'_cons, scrollDebounceMs]) 350 (by decide)⟩
